import Mathlib

/-!
Verification model of `src/web/fal_key_manager.js`: a browser extension that
stores named FAL API credentials in localStorage, designates one as active,
and pushes the active credential to a server endpoint before each job
submission.

Modelling conventions:
* The value stored under the localStorage key `fal_api_keys` is JSON text.
  We represent the parsed value with an inductive `Json` type and model the
  storage cell (`KeysCell`) as holding either nothing (`absent`), a string
  that `JSON.parse` rejects (`corrupt`), or a string parsing to `j`
  (`jsonStr j`); `JSON.stringify`/`JSON.parse` are JS builtins, modelled so
  that stringify-then-parse is the identity on the abstract value.
* JavaScript property read `keys[name]` is modelled as own-property lookup
  (`Json.getProp`), `delete keys[n]` as `Json.delProp`, `keys[n] = v` as
  `Json.setProp`, and `Object.keys` as `Json.objNames`.
* The asynchronous push and the patched `app.queuePrompt` are modelled in a
  trace structure `Eff`: a computation yields the ordered list of its
  observable events (network requests, console errors, opaque host actions)
  together with its outcome, which either resolves (`Except.ok`, the promise
  fulfilled) or rejects (`Except.error`). `await` sequencing is `Eff.bind`,
  and JS `try`/`catch` around an awaited call is `Eff.tryCatch`.
-/

/-- A JSON value as produced by `JSON.parse`. -/
inductive Json where
  | null
  | bool (b : Bool)
  | num (n : Int)
  | str (s : String)
  | arr (elems : List Json)
  | obj (entries : List (String × Json))

/-- JavaScript truthiness of a JSON value: `null`, `false`, `0` and the empty
string are falsy; arrays and objects are always truthy. -/
def Json.truthy : Json → Bool
  | .null => false
  | .bool b => b
  | .num n => n != 0
  | .str s => s != ""
  | .arr _ => true
  | .obj _ => true

/-- Own-property read `j[name]`; `none` models `undefined`.  The claims only
exercise the object case; reads on other values are modelled as absent. -/
def Json.getProp : Json → String → Option Json
  | .obj entries, n => entries.lookup n
  | _, _ => none

/-- `delete j[n]`: removes the own property `n` of an object; on other values
the claims never exercise it and it is modelled as the identity. -/
def Json.delProp : Json → String → Json
  | .obj entries, n => .obj (entries.filter (fun p => p.1 != n))
  | j, _ => j

/-- `j[n] = v`: overwrites an existing own property in place (JS keeps the
property position) or appends a new one; on non-objects the claims never
exercise it and it is modelled as the identity. -/
def Json.setProp : Json → String → Json → Json
  | .obj entries, n, v =>
      .obj (if entries.any (fun p => p.1 == n)
            then entries.map (fun p => if p.1 = n then (n, v) else p)
            else entries ++ [(n, v)])
  | j, _, _ => j

/-- `Object.keys j`: property names of an object, in insertion order. -/
def Json.objNames : Json → List String
  | .obj entries => entries.map Prod.fst
  | _ => []

/-- Contents of the localStorage cell `fal_api_keys` (the serialized
credential set): absent, a string `JSON.parse` throws on, or a string that
parses to the given JSON value. -/
inductive KeysCell where
  | absent
  | corrupt
  | jsonStr (j : Json)

/-- The persistent browser storage the extension touches: the serialized
credential set under `fal_api_keys` and the active key name under
`fal_active_key_name`. -/
structure Storage where
  keysCell : KeysCell
  activeCell : Option String

/-- `loadKeys()`: `JSON.parse(localStorage.getItem(KEYS_STORAGE)) || {}`
inside try/catch.  Absent storage gives `JSON.parse(null) = null`, which the
`|| {}` turns into `{}`; a parse failure is caught and gives `{}`; a parsed
falsy value (`null`, `false`, `0`, `""`) also falls back to `{}`; any truthy
parsed value is returned as-is. -/
def loadKeys (st : Storage) : Json :=
  match st.keysCell with
  | .absent => .obj []
  | .corrupt => .obj []
  | .jsonStr j => if j.truthy then j else .obj []

/-- `saveKeys(keys)`: `localStorage.setItem(KEYS_STORAGE, JSON.stringify(keys))`.
The cell now holds text parsing back to the saved value. -/
def saveKeys (st : Storage) (keys : Json) : Storage :=
  { st with keysCell := .jsonStr keys }

/-- `getActiveKeyName()`: `localStorage.getItem(ACTIVE_STORAGE) || ""`.
An absent cell reads as `null`, hence `""`; a stored string is returned
unchanged (the only falsy string is `""`, which the `|| ""` maps to itself). -/
def getActiveKeyName (st : Storage) : String :=
  st.activeCell.getD ""

/-- `setActiveKeyName(name)`: `localStorage.setItem(ACTIVE_STORAGE, name)`. -/
def setActiveKeyName (st : Storage) (name : String) : Storage :=
  { st with activeCell := some name }

/-- The JSON object `{ name₁: secret₁, ... }` holding a credential set given
as a list of (name, secret) pairs. -/
def strObj (m : List (String × String)) : Json :=
  .obj (m.map (fun p => (p.1, .str p.2)))

/-- One HTTP request as issued through `api.fetchApi`. -/
structure Request where
  path : String
  httpMethod : String
  bodyKey : Json
  bodyName : String

/-- Observable events of the front-end: a network request being issued, a
console error being logged, or an opaque action of the host application
(used for the original `queuePrompt` body). -/
inductive Event where
  | netRequest (r : Request)
  | consoleError (msg : String)
  | hostAction (tag : Nat)

/-- An asynchronous computation: the ordered list of events it performs and
its outcome — `Except.ok` models a fulfilled promise, `Except.error` a
rejected one. -/
structure Eff (α : Type) where
  trace : List Event
  outcome : Except String α

/-- A computation that performs no events and resolves with `a`. -/
def Eff.pure {α : Type} (a : α) : Eff α :=
  { trace := [], outcome := Except.ok a }

/-- `await` sequencing: run `x` to completion; only if it resolved, run the
continuation.  A rejection of `x` propagates and the continuation never
starts. -/
def Eff.bind {α β : Type} (x : Eff α) (f : α → Eff β) : Eff β :=
  match x.outcome with
  | .error e => { trace := x.trace, outcome := .error e }
  | .ok a => { trace := x.trace ++ (f a).trace, outcome := (f a).outcome }

/-- JS `try { await x } catch (e) { handler e }`: a rejection of `x` is
caught and replaced by the handler computation. -/
def Eff.tryCatch {α : Type} (x : Eff α) (handler : String → Eff α) : Eff α :=
  match x.outcome with
  | .ok _ => x
  | .error e => { trace := x.trace ++ (handler e).trace, outcome := (handler e).outcome }

/-- `api.fetchApi(path, {method, body})`: issues the request, then resolves
or rejects according to the network outcome `netErr` (`some e` means the
request fails with error message `e`). -/
def fetchApi (netErr : Option String) (path httpMethod : String)
    (bodyKey : Json) (bodyName : String) : Eff Unit :=
  { trace := [.netRequest { path := path, httpMethod := httpMethod,
                            bodyKey := bodyKey, bodyName := bodyName }],
    outcome := match netErr with
               | some e => .error e
               | none => .ok () }

/-- The console message logged when the push fails (`console.error` with the
fixed prefix and the caught error). -/
def pushErrLog (e : String) : String :=
  "[FAL Key Manager] Failed to push key to server: " ++ e

/-- `pushActiveKeyToServer()`: resolves the active name, reads the credential
set, looks the name up; `if (!key) return;` makes both an absent (`undefined`)
and a falsy property value an early no-op.  Otherwise it awaits the POST to
`/fal-api/set-key` with body `{ key, name }` inside try/catch, logging and
swallowing any rejection. -/
def pushActiveKeyToServer (netErr : Option String) (st : Storage) : Eff Unit :=
  match (loadKeys st).getProp (getActiveKeyName st) with
  | none => Eff.pure ()
  | some k =>
      if k.truthy then
        Eff.tryCatch
          (fetchApi netErr "/fal-api/set-key" "POST" k (getActiveKeyName st))
          (fun e => { trace := [Event.consoleError (pushErrLog e)],
                      outcome := Except.ok () })
      else Eff.pure ()

/-- The patched `app.queuePrompt` installed by `installQueueHook`:
`async function (...args) { await pushActiveKeyToServer(); return origQueue(...args); }`.
`origQueue` is the original submission function (bound to `app`), given here
as an arbitrary computation of the host. -/
def wrappedQueuePrompt {α β : Type} (netErr : Option String) (st : Storage)
    (origQueue : α → Eff β) (args : α) : Eff β :=
  Eff.bind (pushActiveKeyToServer netErr st) (fun _ => origQueue args)

/-- Secret preview in the manage-keys dialog list:
`keys[n].slice(0, 8) + "..."`. -/
def secretPreview (secret : String) : String :=
  String.mk (secret.data.take 8) ++ "..."

/-- Text content of one entry row in the dialog list, from
`info.textContent = n + "  (" + preview + ")"` (template literal). -/
def renderEntryText (n secret : String) : String :=
  n ++ "  (" ++ secretPreview secret ++ ")"

/-- `needle` occurs contiguously inside `hay`. -/
def strContains (hay needle : String) : Prop :=
  ∃ pre post : String, pre ++ needle ++ post = hay

/-- The `del.onclick` handler of an entry row: reload the set, delete the
entry, persist, and clear the active name when it was the removed one. -/
def removeEntryClick (st : Storage) (n : String) : Storage :=
  let st1 := saveKeys st ((loadKeys st).delProp n)
  if getActiveKeyName st1 = n then setActiveKeyName st1 "" else st1

/-- JS `String.prototype.trim()`: strips leading and trailing whitespace.
Defined structurally over the character list so it is kernel-evaluable. -/
def jsTrim (s : String) : String :=
  String.mk (((s.data.dropWhile Char.isWhitespace).reverse.dropWhile
    Char.isWhitespace).reverse)

/-- The `addBtn.onclick` handler: trim both inputs, reject when either is
empty (`if (!n || !k) return;`), else reload, insert/overwrite, persist. -/
def addEntryClick (st : Storage) (nameInput keyInput : String) : Storage :=
  let n := jsTrim nameInput
  let k := jsTrim keyInput
  if n = "" ∨ k = "" then st
  else saveKeys st ((loadKeys st).setProp n (.str k))

/-- The `key_selector` combo widget state touched by `refreshNodeWidgets`. -/
structure ComboWidget where
  optionValues : List String
  value : String
deriving DecidableEq

/-- `refreshNodeWidgets(node)`: recompute the selector options as the entry
names (or the `"(no keys)"` sentinel when none) and set the displayed value
to the active name when still present, else to the first option. -/
def refreshNodeWidgets (st : Storage) : ComboWidget :=
  let names := (loadKeys st).objNames
  let options := if names.isEmpty then ["(no keys)"] else names
  let active := getActiveKeyName st
  { optionValues := options,
    value := if names.contains active then active else options.headD "" }

/-- The change callback of the `key_selector` widget installed in
`nodeCreated`: `if (value && value !== "(no keys)") setActiveKeyName(value)`. -/
def keySelectorCallback (st : Storage) (value : String) : Storage :=
  if value ≠ "" ∧ value ≠ "(no keys)" then setActiveKeyName st value else st

/-! ### Association-list helper lemmas -/

/-- Filtering by key commutes with wrapping the values into `Json.str`. -/
theorem filter_map_fst (m : List (String × String)) (n : String) :
    (m.map (fun p => (p.1, Json.str p.2))).filter (fun p => p.1 != n)
      = (m.filter (fun p => p.1 != n)).map (fun p => (p.1, Json.str p.2)) := by
  induction m with
  | nil => rfl
  | cons p t ih =>
      by_cases h : p.1 = n
      · simp [List.filter_cons, bne_iff_ne, h, ih]
      · simp [List.filter_cons, bne_iff_ne, h, ih]

/-- `delete` on the stored object of a credential set drops the entry. -/
theorem delProp_strObj (m : List (String × String)) (n : String) :
    (strObj m).delProp n = strObj (m.filter (fun p => p.1 != n)) :=
  congrArg Json.obj (filter_map_fst m n)

/-- Key lookup commutes with wrapping the values into `Json.str`. -/
theorem lookup_map_str (m : List (String × String)) (n : String) :
    List.lookup n (m.map (fun p => (p.1, Json.str p.2)))
      = (List.lookup n m).map Json.str := by
  induction m with
  | nil => rfl
  | cons p t ih =>
      by_cases h : n = p.1
      · simp [List.lookup, h]
      · have hb : (n == p.1) = false := by simpa using h
        simp [List.lookup, hb, ih]

/-- Property read on the stored object of a credential set is lookup. -/
theorem getProp_strObj (m : List (String × String)) (n : String) :
    (strObj m).getProp n = (List.lookup n m).map Json.str :=
  lookup_map_str m n

/-- A key absent from every pair is not found by lookup. -/
theorem lookup_eq_none_of_ne (m : List (String × String)) (n : String)
    (h : ∀ p ∈ m, p.1 ≠ n) : List.lookup n m = none := by
  induction m with
  | nil => rfl
  | cons p t ih =>
      have h1 : ¬ n = p.1 := fun hh => h p (List.mem_cons_self p t) hh.symm
      have hb : (n == p.1) = false := by simpa using h1
      simp only [List.lookup, hb]
      exact ih (fun q hq => h q (List.mem_cons_of_mem p hq))

/-- `Object.keys` of the stored object of a credential set is its name list. -/
theorem objNames_strObj (m : List (String × String)) :
    (strObj m).objNames = m.map Prod.fst := by
  simp [strObj, Json.objNames, List.map_map]

/-- Reloading a freshly stored object returns it (objects are truthy). -/
theorem loadKeys_saveKeys_obj (st : Storage) (entries : List (String × Json)) :
    loadKeys (saveKeys st (Json.obj entries)) = Json.obj entries := by
  simp [loadKeys, saveKeys, Json.truthy]

/-- The push never rejects: its outcome is always fulfilled. -/
theorem push_outcome_ok (netErr : Option String) (st : Storage) :
    (pushActiveKeyToServer netErr st).outcome = Except.ok () := by
  unfold pushActiveKeyToServer
  split
  · rfl
  · rename_i k heq
    by_cases ht : k.truthy <;> cases netErr <;>
      simp [ht, Eff.tryCatch, fetchApi, Eff.pure]

/-! ### Claim theorems -/

/-- Claim C1: every invocation of the patched `app.queuePrompt` first runs the
push to completion — all of its events precede every event of the original
submission function — then calls the original function on exactly the original
arguments and returns its outcome unchanged, for every network outcome of the
push. -/
theorem queuePrompt_hook_ordering {α β : Type} (netErr : Option String) (st : Storage)
    (origQueue : α → Eff β) (args : α) :
    wrappedQueuePrompt netErr st origQueue args =
      { trace := (pushActiveKeyToServer netErr st).trace ++ (origQueue args).trace,
        outcome := (origQueue args).outcome } := by
  unfold wrappedQueuePrompt Eff.bind
  rw [push_outcome_ok]

/-- Claim C4: when the active name is unset or the stored credential set (all
names non-empty, per the data model) has no entry for it, the push performs no
network request and resolves; in particular this covers the empty set. -/
theorem pushActive_silent_noop (netErr : Option String) (m : List (String × String))
    (act : Option String)
    (hne : ∀ p ∈ m, p.1 ≠ "")
    (hcase : getActiveKeyName ⟨KeysCell.jsonStr (strObj m), act⟩ = "" ∨
             List.lookup (getActiveKeyName ⟨KeysCell.jsonStr (strObj m), act⟩) m = none) :
    pushActiveKeyToServer netErr ⟨KeysCell.jsonStr (strObj m), act⟩ = Eff.pure () := by
  have hload : loadKeys ⟨KeysCell.jsonStr (strObj m), act⟩ = strObj m := by
    simp [loadKeys, strObj, Json.truthy]
  have hkey : (loadKeys ⟨KeysCell.jsonStr (strObj m), act⟩).getProp
      (getActiveKeyName ⟨KeysCell.jsonStr (strObj m), act⟩) = none := by
    rw [hload, getProp_strObj]
    rcases hcase with hc | hc
    · rw [hc, lookup_eq_none_of_ne m "" (fun p hp => hne p hp)]
      rfl
    · rw [hc]
      rfl
  unfold pushActiveKeyToServer
  rw [hkey]

/-- Witness for C4: the empty credential set yields no request even with an
active name set. -/
theorem pushActive_silent_noop_witness :
    pushActiveKeyToServer none ⟨KeysCell.jsonStr (strObj []), some "prod"⟩ = Eff.pure () :=
  pushActive_silent_noop none [] (some "prod")
    (fun p hp => absurd hp (List.not_mem_nil p)) (Or.inr rfl)

/-- Claim C5: the push never surfaces an error: for every network outcome its
promise resolves, and on failure the only events are the issued request
followed by the console error log. -/
theorem pushActive_swallows_failure (e : String) (st : Storage) :
    (pushActiveKeyToServer (some e) st).outcome = Except.ok () ∧
    (pushActiveKeyToServer none st).outcome = Except.ok () ∧
    ((pushActiveKeyToServer (some e) st).trace = [] ∨
     ∃ r, (pushActiveKeyToServer (some e) st).trace =
       [Event.netRequest r, Event.consoleError (pushErrLog e)]) := by
  refine ⟨push_outcome_ok _ _, push_outcome_ok _ _, ?_⟩
  unfold pushActiveKeyToServer
  split
  · left
    rfl
  · rename_i k heq
    by_cases ht : k.truthy
    · right
      refine ⟨{ path := "/fal-api/set-key", httpMethod := "POST",
                bodyKey := k, bodyName := getActiveKeyName st }, ?_⟩
      simp [ht, Eff.tryCatch, fetchApi]
    · left
      simp [ht, Eff.pure]

/-- Claim C2: the per-entry remove action deletes the entry from the persisted
set, clears ActiveName exactly when it equalled the removed name, and leaves
it unchanged otherwise. -/
theorem removeEntry_contract (m : List (String × String)) (act : Option String) (n : String)
    (_hnd : (m.map Prod.fst).Nodup) :
    loadKeys (removeEntryClick ⟨KeysCell.jsonStr (strObj m), act⟩ n) =
      strObj (m.filter (fun p => p.1 != n)) ∧
    getActiveKeyName (removeEntryClick ⟨KeysCell.jsonStr (strObj m), act⟩ n) =
      (if getActiveKeyName ⟨KeysCell.jsonStr (strObj m), act⟩ = n then ""
       else getActiveKeyName ⟨KeysCell.jsonStr (strObj m), act⟩) := by
  have hload : loadKeys ⟨KeysCell.jsonStr (strObj m), act⟩ = strObj m := by
    simp [loadKeys, strObj, Json.truthy]
  unfold removeEntryClick
  rw [hload, delProp_strObj]
  by_cases h : getActiveKeyName (saveKeys ⟨KeysCell.jsonStr (strObj m), act⟩
      (strObj (m.filter (fun p => p.1 != n)))) = n
  · rw [if_pos h]
    have h0 : getActiveKeyName ⟨KeysCell.jsonStr (strObj m), act⟩ = n := h
    simp only [getActiveKeyName, saveKeys] at h0
    constructor
    · simp [setActiveKeyName, saveKeys, loadKeys, strObj, Json.truthy]
    · simp only [setActiveKeyName, saveKeys, getActiveKeyName]
      rw [if_pos h0]
      rfl
  · rw [if_neg h]
    have h0 : ¬ getActiveKeyName ⟨KeysCell.jsonStr (strObj m), act⟩ = n := h
    simp only [getActiveKeyName, saveKeys] at h0
    constructor
    · simp [saveKeys, loadKeys, strObj, Json.truthy]
    · simp only [saveKeys, getActiveKeyName]
      rw [if_neg h0]

/-- Witness for C2: removing the single, active entry empties the set and
clears the active name. -/
theorem removeEntry_contract_witness :
    loadKeys (removeEntryClick ⟨KeysCell.jsonStr (strObj [("prod", "fal-aaa111")]), some "prod"⟩ "prod") =
      strObj ([("prod", "fal-aaa111")].filter (fun p => p.1 != "prod")) ∧
    getActiveKeyName (removeEntryClick ⟨KeysCell.jsonStr (strObj [("prod", "fal-aaa111")]), some "prod"⟩ "prod") =
      (if getActiveKeyName ⟨KeysCell.jsonStr (strObj [("prod", "fal-aaa111")]), some "prod"⟩ = "prod" then ""
       else getActiveKeyName ⟨KeysCell.jsonStr (strObj [("prod", "fal-aaa111")]), some "prod"⟩) :=
  removeEntry_contract [("prod", "fal-aaa111")] (some "prod") "prod" (by decide)

/-- Claim C3 counterexample: for the stored entry ("a", "short") the rendered
row text contains the full secret "short" — the truncation only removes
characters beyond the first eight. -/
theorem renderEntry_contains_short_secret :
    strContains (renderEntryText "a" "short") "short" :=
  ⟨"a  (", "...)", by decide⟩

/-- Length of a concatenation of strings. -/
theorem strLength_append (s t : String) : (s ++ t).length = s.length + t.length :=
  String.length_append s t

/-- A string occurring inside another is no longer than it. -/
theorem strContains_length {hay needle : String} (h : strContains hay needle) :
    needle.length ≤ hay.length := by
  obtain ⟨pre, post, hpp⟩ := h
  rw [← hpp, strLength_append, strLength_append]
  omega

/-- Claim C3 amended: each row renders the name followed by a preview made of
the first at-most-8 characters of the secret and "..."; the preview is at most
11 characters long, so it cannot contain the full secret once the secret is
longer than 11 characters.  (Secrets of up to 8 characters appear in full.) -/
theorem renderEntry_truncates (n secret : String) :
    renderEntryText n secret = n ++ "  (" ++ (String.mk (secret.data.take 8) ++ "...") ++ ")" ∧
    (secretPreview secret).length ≤ 11 ∧
    (11 < secret.length → ¬ strContains (secretPreview secret) secret) := by
  refine ⟨rfl, ?_, ?_⟩
  · have h1 : (secretPreview secret).length = (secret.data.take 8).length + 3 := by
      unfold secretPreview
      rw [String.length_append, String.length_mk]
      rfl
    have h2 : (secret.data.take 8).length ≤ 8 := List.length_take_le 8 secret.data
    omega
  · intro hlen hcon
    have h1 : (secretPreview secret).length ≤ 11 := by
      have h2 : (secretPreview secret).length = (secret.data.take 8).length + 3 := by
        unfold secretPreview
        rw [String.length_append, String.length_mk]
        rfl
      have h3 : (secret.data.take 8).length ≤ 8 := List.length_take_le 8 secret.data
      omega
    have h4 := strContains_length hcon
    omega

/-- Witness for the C3 amended theorem at a 13-character secret. -/
theorem renderEntry_truncates_witness :
    renderEntryText "prod" "fal-aaa111bbb" =
      "prod" ++ "  (" ++ (String.mk ("fal-aaa111bbb".data.take 8) ++ "...") ++ ")" ∧
    (secretPreview "fal-aaa111bbb").length ≤ 11 ∧
    ¬ strContains (secretPreview "fal-aaa111bbb") "fal-aaa111bbb" := by
  obtain ⟨h1, h2, h3⟩ := renderEntry_truncates "prod" "fal-aaa111bbb"
  exact ⟨h1, h2, h3 (by decide)⟩

/-- Claim C7: persisting a credential set with saveKeys and reloading with
loadKeys returns the identical mapping. -/
theorem saveKeys_loadKeys_roundtrip (st : Storage) (m : List (String × String))
    (_hnd : (m.map Prod.fst).Nodup) :
    loadKeys (saveKeys st (strObj m)) = strObj m := by
  simp [loadKeys, saveKeys, strObj, Json.truthy]

/-- Witness for C7 at a one-entry set. -/
theorem saveKeys_loadKeys_roundtrip_witness :
    loadKeys (saveKeys ⟨KeysCell.absent, none⟩ (strObj [("prod", "fal-aaa111")])) =
      strObj [("prod", "fal-aaa111")] :=
  saveKeys_loadKeys_roundtrip ⟨KeysCell.absent, none⟩ [("prod", "fal-aaa111")] (by decide)

/-- Claim C8 counterexample: a stored value that is valid JSON but not a
mapping — the number 5 — is truthy, so loadKeys returns it unchanged instead
of an empty credential set. -/
theorem loadKeys_truthy_nonmapping :
    loadKeys ⟨KeysCell.jsonStr (Json.num 5), none⟩ = Json.num 5 ∧
    Json.num 5 ≠ Json.obj [] := by
  constructor
  · simp [loadKeys, Json.truthy]
  · intro h
    exact Json.noConfusion h

/-- Claim C8 amended: for absent storage, for any unparseable stored value,
and for any stored value parsing to a falsy JSON value, loadKeys returns the
empty credential set and never propagates a parse error; truthy non-mapping
values are returned as-is rather than normalized. -/
theorem loadKeys_corrupt_empty (a : Option String) (j : Json) :
    loadKeys ⟨KeysCell.absent, a⟩ = Json.obj [] ∧
    loadKeys ⟨KeysCell.corrupt, a⟩ = Json.obj [] ∧
    (j.truthy = false → loadKeys ⟨KeysCell.jsonStr j, a⟩ = Json.obj []) := by
  refine ⟨rfl, rfl, ?_⟩
  intro h
  simp [loadKeys, h]

/-- Witness for the C8 amended theorem at the falsy parsed value null. -/
theorem loadKeys_corrupt_empty_witness :
    loadKeys ⟨KeysCell.absent, none⟩ = Json.obj [] ∧
    loadKeys ⟨KeysCell.corrupt, none⟩ = Json.obj [] ∧
    loadKeys ⟨KeysCell.jsonStr Json.null, none⟩ = Json.obj [] := by
  obtain ⟨h1, h2, h3⟩ := loadKeys_corrupt_empty none Json.null
  exact ⟨h1, h2, h3 rfl⟩

/-- Emptiness of the name list matches emptiness of the entry list. -/
theorem map_fst_isEmpty (m : List (String × String)) :
    (m.map Prod.fst).isEmpty = m.isEmpty := by
  cases m <;> rfl

/-- Reloading a freshly stored credential set returns it. -/
theorem loadKeys_saveKeys_strObj (st : Storage) (x : List (String × String)) :
    loadKeys (saveKeys st (strObj x)) = strObj x := by
  simp [loadKeys, saveKeys, strObj, Json.truthy]

/-- Claim C6: the widget refresh sets the selector options to the entry names
(or the single sentinel when the set is empty) and the value to ActiveName
when it is still a name of the set, else to the first option; hence after
deleting the last entry both the options and the value are the sentinel. -/
theorem refreshNodeWidgets_contract (m : List (String × String)) (act : Option String)
    (n0 s0 : String) (act2 : Option String)
    (_hnd : (m.map Prod.fst).Nodup) :
    (refreshNodeWidgets ⟨KeysCell.jsonStr (strObj m), act⟩).optionValues
      = (if m.isEmpty then ["(no keys)"] else m.map Prod.fst) ∧
    (refreshNodeWidgets ⟨KeysCell.jsonStr (strObj m), act⟩).value
      = (if (m.map Prod.fst).contains (getActiveKeyName ⟨KeysCell.jsonStr (strObj m), act⟩)
         then getActiveKeyName ⟨KeysCell.jsonStr (strObj m), act⟩
         else (if m.isEmpty then ["(no keys)"] else m.map Prod.fst).headD "") ∧
    refreshNodeWidgets (removeEntryClick ⟨KeysCell.jsonStr (strObj [(n0, s0)]), act2⟩ n0)
      = { optionValues := ["(no keys)"], value := "(no keys)" } := by
  have hload : loadKeys ⟨KeysCell.jsonStr (strObj m), act⟩ = strObj m := by
    simp [loadKeys, strObj, Json.truthy]
  refine ⟨?_, ?_, ?_⟩
  · simp only [refreshNodeWidgets, hload, objNames_strObj, map_fst_isEmpty]
  · simp only [refreshNodeWidgets, hload, objNames_strObj, map_fst_isEmpty]
  · have hsent : ∀ a : Option String,
        refreshNodeWidgets ⟨KeysCell.jsonStr (Json.obj []), a⟩ =
          { optionValues := ["(no keys)"], value := "(no keys)" } := by
      intro a
      rfl
    have hK : (loadKeys ⟨KeysCell.jsonStr (strObj [(n0, s0)]), act2⟩).delProp n0
        = Json.obj [] := by
      have hl : loadKeys ⟨KeysCell.jsonStr (strObj [(n0, s0)]), act2⟩ = strObj [(n0, s0)] := by
        simp [loadKeys, strObj, Json.truthy]
      rw [hl, delProp_strObj]
      simp [strObj, List.filter_cons]
    unfold removeEntryClick
    rw [hK]
    by_cases h : getActiveKeyName
        (saveKeys ⟨KeysCell.jsonStr (strObj [(n0, s0)]), act2⟩ (Json.obj [])) = n0
    · rw [if_pos h]
      exact hsent (some "")
    · rw [if_neg h]
      exact hsent act2

/-- Witness for C6 at a one-entry set with that entry active, deleting it. -/
theorem refreshNodeWidgets_contract_witness :
    (refreshNodeWidgets ⟨KeysCell.jsonStr (strObj [("prod", "fal-aaa111")]), some "prod"⟩).optionValues
      = (if ([("prod", "fal-aaa111")] : List (String × String)).isEmpty then ["(no keys)"]
         else [("prod", "fal-aaa111")].map Prod.fst) ∧
    (refreshNodeWidgets ⟨KeysCell.jsonStr (strObj [("prod", "fal-aaa111")]), some "prod"⟩).value
      = (if ([("prod", "fal-aaa111")].map Prod.fst).contains
             (getActiveKeyName ⟨KeysCell.jsonStr (strObj [("prod", "fal-aaa111")]), some "prod"⟩)
         then getActiveKeyName ⟨KeysCell.jsonStr (strObj [("prod", "fal-aaa111")]), some "prod"⟩
         else (if ([("prod", "fal-aaa111")] : List (String × String)).isEmpty then ["(no keys)"]
               else [("prod", "fal-aaa111")].map Prod.fst).headD "") ∧
    refreshNodeWidgets (removeEntryClick ⟨KeysCell.jsonStr (strObj [("prod", "fal-aaa111")]), some "prod"⟩ "prod")
      = { optionValues := ["(no keys)"], value := "(no keys)" } :=
  refreshNodeWidgets_contract [("prod", "fal-aaa111")] (some "prod") "prod" "fal-aaa111"
    (some "prod") (by decide)

/-- Overwriting a present key commutes with wrapping values into `Json.str`. -/
theorem map_overwrite_comm (m : List (String × String)) (nm k : String) :
    (m.map (fun p => (p.1, Json.str p.2))).map
        (fun p => if p.1 = nm then (nm, Json.str k) else p)
      = (m.map (fun p => if p.1 = nm then (p.1, k) else p)).map
          (fun p => (p.1, Json.str p.2)) := by
  induction m with
  | nil => rfl
  | cons p t ih =>
      simp only [List.map_cons]
      by_cases h : p.1 = nm
      · rw [if_pos h, if_pos h, ih, h]
      · rw [if_neg h, if_neg h, ih]

/-- Assigning to a key that already exists rewrites that entry in place. -/
theorem setProp_strObj_overwrite (m : List (String × String)) (nm k : String)
    (hex : m.any (fun p => p.1 == nm) = true) :
    (strObj m).setProp nm (Json.str k)
      = strObj (m.map (fun p => if p.1 = nm then (p.1, k) else p)) := by
  have hany : (m.map (fun p => (p.1, Json.str p.2))).any (fun p => p.1 == nm) = true := by
    have hx : ∃ x : String, (nm, x) ∈ m := by simpa using hex
    obtain ⟨x, hx⟩ := hx
    simp only [List.any_eq_true, beq_iff_eq]
    refine ⟨(nm, Json.str x), ?_, rfl⟩
    exact List.mem_map_of_mem _ hx
  show Json.setProp (Json.obj (m.map (fun p => (p.1, Json.str p.2)))) nm (Json.str k) = _
  simp only [Json.setProp, hany, if_true]
  exact congrArg Json.obj (map_overwrite_comm m nm k)

/-- Claim C9: submitting the add form with a trimmed name that already exists
and both trimmed fields non-empty overwrites that entry's secret and leaves
the number of entries unchanged. -/
theorem addEntry_overwrites (m : List (String × String)) (act : Option String)
    (nameInput keyInput : String)
    (_hnd : (m.map Prod.fst).Nodup)
    (hn : jsTrim nameInput ≠ "") (hk : jsTrim keyInput ≠ "")
    (hex : m.any (fun p => p.1 == jsTrim nameInput) = true) :
    loadKeys (addEntryClick ⟨KeysCell.jsonStr (strObj m), act⟩ nameInput keyInput) =
      strObj (m.map (fun p => if p.1 = jsTrim nameInput then (p.1, jsTrim keyInput) else p)) ∧
    (loadKeys (addEntryClick ⟨KeysCell.jsonStr (strObj m), act⟩ nameInput keyInput)).objNames.length
      = m.length := by
  have hguard : ¬ (jsTrim nameInput = "" ∨ jsTrim keyInput = "") := by
    rintro (h | h)
    exacts [hn h, hk h]
  have hload : loadKeys ⟨KeysCell.jsonStr (strObj m), act⟩ = strObj m := by
    simp [loadKeys, strObj, Json.truthy]
  have hstep : addEntryClick ⟨KeysCell.jsonStr (strObj m), act⟩ nameInput keyInput
      = saveKeys ⟨KeysCell.jsonStr (strObj m), act⟩
          (strObj (m.map (fun p => if p.1 = jsTrim nameInput then (p.1, jsTrim keyInput) else p))) := by
    unfold addEntryClick
    rw [if_neg hguard, hload, setProp_strObj_overwrite m _ _ hex]
  constructor
  · rw [hstep]
    exact loadKeys_saveKeys_strObj _ _
  · rw [hstep, loadKeys_saveKeys_strObj, objNames_strObj]
    simp

/-- Witness for C9: overwriting the single entry "prod" keeps one entry. -/
theorem addEntry_overwrites_witness :
    loadKeys (addEntryClick ⟨KeysCell.jsonStr (strObj [("prod", "old")]), none⟩ "prod" "fal-new") =
      strObj ([("prod", "old")].map
        (fun p => if p.1 = jsTrim "prod" then (p.1, jsTrim "fal-new") else p)) ∧
    (loadKeys (addEntryClick ⟨KeysCell.jsonStr (strObj [("prod", "old")]), none⟩ "prod" "fal-new")).objNames.length
      = ([("prod", "old")] : List (String × String)).length :=
  addEntry_overwrites [("prod", "old")] none "prod" "fal-new"
    (by decide) (by decide) (by decide) (by decide)

/-- Claim C10: the selector change callback persists the delivered value as
ActiveName only when it is non-empty and not the sentinel; otherwise the
storage is untouched, so the sentinel can never become active through it. -/
theorem keySelector_guard (st : Storage) (value : String) :
    keySelectorCallback st value =
      (if value = "" ∨ value = "(no keys)" then st else { st with activeCell := some value }) ∧
    (getActiveKeyName (keySelectorCallback st value) = "(no keys)" →
      getActiveKeyName st = "(no keys)") := by
  have hcb : keySelectorCallback st value =
      (if value = "" ∨ value = "(no keys)" then st else { st with activeCell := some value }) := by
    unfold keySelectorCallback setActiveKeyName
    by_cases h1 : value = ""
    · rw [if_neg (fun hc => hc.1 h1), if_pos (Or.inl h1)]
    · by_cases h2 : value = "(no keys)"
      · rw [if_neg (fun hc => hc.2 h2), if_pos (Or.inr h2)]
      · rw [if_pos ⟨h1, h2⟩, if_neg ?_]
        rintro (h | h)
        exacts [h1 h, h2 h]
  refine ⟨hcb, ?_⟩
  intro hx
  rw [hcb] at hx
  by_cases h1 : value = "" ∨ value = "(no keys)"
  · rw [if_pos h1] at hx
    exact hx
  · rw [if_neg h1] at hx
    exfalso
    apply h1
    right
    simpa [getActiveKeyName] using hx

/-- Witness for C10: delivering the sentinel leaves the active name alone. -/
theorem keySelector_guard_witness :
    getActiveKeyName ⟨KeysCell.absent, some "(no keys)"⟩ = "(no keys)" :=
  (keySelector_guard ⟨KeysCell.absent, some "(no keys)"⟩ "(no keys)").2 (by decide)
